import Mathlib

/-!
Verification of the Azure account orchestration layer
(`packages/azure/src/application/AzureAccount.ts`).

The TypeScript class `AzureAccount` is shallowly embedded here:
  * pure data carried by the orchestration layer (subscriptions, config,
    log entries, opaque estimator results) becomes plain Lean structures;
  * the upstream cloud APIs (subscription listing, per-subscription
    consumption query, per-subscription advisor query) become a `World`
    record of fallible functions (`Except` models a rejected promise);
  * each method becomes a Lean function threading the instance state
    (`AzureAccount`) explicitly and returning its result together with the
    final state and the emitted log, so that frame properties are statable;
  * the concurrent executor (`Promise.all` over batches produced by
    Ramda's `splitEvery`) is modelled twice: a functional collapse used
    for value-level claims, and an explicit event-trace / completion-
    schedule semantics used for the temporal and order-independence
    claims.
-/

namespace CCF

/-- A subscription as used by the layer: identifier plus display name
(`Subscription` from the Azure SDK; only these two fields are read). -/
structure Subscription where
  subscriptionId : String
  displayName : String
deriving DecidableEq, Repr

/-- Log entries emitted through `this.logger` (levels used by the file). -/
inductive LogEntry where
  | info (msg : String)
  | warn (msg : String)
  | debug (msg : String)
deriving DecidableEq, Repr

/-- Opaque estimation result record: the layer never inspects it, only
collects and flattens sequences of it. -/
structure EstimationResult where
  payload : Nat
deriving DecidableEq, Repr

/-- Opaque advisor recommendation record, same pass-through treatment. -/
structure RecommendationResult where
  payload : Nat
deriving DecidableEq, Repr

/-- The `GroupBy` enumeration from the common package; opaque to this
layer and passed through verbatim. -/
inductive GroupBy where
  | day | week | month | quarter | year
deriving DecidableEq, Repr

/-- One of the two credential variants produced by
`AzureCredentialsProvider.create()`; treated uniformly as opaque. -/
inductive Credential where
  | clientSecret (token : String)
  | workloadIdentity (token : String)
deriving DecidableEq, Repr

/-- The subscription-listing client, constructed from the credential
(`new SubscriptionClient(this.credentials)`). -/
structure SubscriptionClient where
  credential : Credential
deriving DecidableEq, Repr

/-- Instance state of the `AzureAccount` facade.  Both fields are
`undefined` until `initializeAccount` assigns them, hence `Option`. -/
structure AzureAccount where
  credentials : Option Credential := none
  subscriptionClient : Option SubscriptionClient := none
deriving DecidableEq, Repr

/-- The `AZURE` slice of `configLoader()` read by
`getDataFromConsumptionManagement`.  `SUBSCRIPTION_CHUNKS` is a JS value
that may be `undefined` (here `none`). -/
structure AzureConfig where
  CONSUMPTION_CHUNKS_DAYS : Bool
  SUBSCRIPTION_CHUNKS : Option Nat
deriving DecidableEq, Repr

/-- JS truthiness of the optional numeric config value
(`AZURE.SUBSCRIPTION_CHUNKS ? _ : _`): `undefined` and `0` are falsy. -/
def jsTruthy : Option Nat → Bool
  | none => false
  | some n => n != 0

/-- JS string interpolation of the optional numeric config value:
`undefined` prints as "undefined". -/
def jsShowOptNat : Option Nat → String
  | none => "undefined"
  | some n => toString n

/-- The upstream cloud APIs as seen by this layer.  Each field models one
suspension point; `Except.error e` models a promise rejected with an
error whose `.message` is `e`. -/
structure World where
  listSubscriptions : Option SubscriptionClient → Except String (List Subscription)
  fetchConsumption : Option Credential → Nat → Nat → String → GroupBy →
    Except String (List EstimationResult)
  fetchAdvisor : Option Credential → String → Except String (List RecommendationResult)

/-- Result of running one method: the value (or propagated error), the
final instance state, and the log emitted during the call. -/
structure MethodResult (ρ : Type) where
  value : Except String ρ
  account : AzureAccount
  log : List LogEntry
deriving Repr

/-- Warning text of `getSubscriptions` when the listing is empty
(lines 133-136 of AzureAccount.ts). -/
def noSubscriptionsWarning : String :=
  "No subscription returned for these Azure credentials, be sure the registered application has " ++
    "enough permissions. Go to https://www.cloudcarbonfootprint.org/docs/azure/ for more information."

/-- `getSubscriptions` (lines 126-140): drain the paginated iterator
(already collapsed to a single upstream answer in `World`), warn when
empty; an iterator failure propagates. -/
def getSubscriptions (a : AzureAccount) (w : World) : MethodResult (List Subscription) :=
  match w.listSubscriptions a.subscriptionClient with
  | .error e => ⟨.error e, a, []⟩
  | .ok subs =>
      ⟨.ok subs, a, if subs.length = 0 then [LogEntry.warn noSubscriptionsWarning] else []⟩

/-- Warning text for a failed advisor query (lines 68-70). -/
def advisorWarnMsg (subscriptionId e : String) : String :=
  "Unable to get Advisor recommendations data for Azure subscription " ++
    subscriptionId ++ ": " ++ e

/-- Body of the per-subscription advisor task (lines 62-73): try the
query, on failure log a warning and substitute an empty sequence. -/
def runAdvisorRequest (a : AzureAccount) (w : World) (s : Subscription) :
    List RecommendationResult × List LogEntry :=
  match w.fetchAdvisor a.credentials s.subscriptionId with
  | .ok r => (r, [])
  | .error e => ([], [LogEntry.warn (advisorWarnMsg s.subscriptionId e)])

/-- `getDataFromAdvisorManagement` (lines 59-76): list subscriptions,
run every per-subscription advisor task (`Promise.all` keeps issue
order), flatten. -/
def getDataFromAdvisorManagement (a : AzureAccount) (w : World) :
    MethodResult (List RecommendationResult) :=
  let r := getSubscriptions a w
  match r.value with
  | .error e => ⟨.error e, r.account, r.log⟩
  | .ok subs =>
      let outs := subs.map (runAdvisorRequest a w)
      ⟨.ok (outs.map Prod.fst).flatten, r.account, r.log ++ (outs.map Prod.snd).flatten⟩

/-- Info line logged at the start of each consumption task (line 212). -/
def gettingDataMsg (displayName : String) : String :=
  "Getting data for " ++ displayName ++ "..."

/-- Warning text for a failed consumption query (lines 220-222). -/
def consumptionWarnMsg (subscriptionId e : String) : String :=
  "Unable to get estimate data for Azure subscription " ++ subscriptionId ++ ": " ++ e

/-- Body of one deferred request built by `createSubscriptionRequests`
(lines 209-226): log the info line, try `getDataForSubscription`, on
failure log a warning and substitute an empty sequence. -/
def runSubscriptionRequest (a : AzureAccount) (w : World)
    (startDate endDate : Nat) (grouping : GroupBy) (s : Subscription) :
    List EstimationResult × List LogEntry :=
  match w.fetchConsumption a.credentials startDate endDate s.subscriptionId grouping with
  | .ok r => (r, [LogEntry.info (gettingDataMsg s.displayName)])
  | .error e =>
      ([], [LogEntry.info (gettingDataMsg s.displayName),
            LogEntry.warn (consumptionWarnMsg s.subscriptionId e)])

/-- Fuel-driven worker for `splitEvery`; fuel `xs.length` suffices since
every call site passes a chunk size of at least 1. -/
def splitEveryGo (n : Nat) : Nat → List α → List (List α)
  | _, [] => []
  | 0, xs => [xs]
  | fuel+1, x :: rest => (x :: rest).take n :: splitEveryGo n fuel ((x :: rest).drop n)

/-- Ramda's `R.splitEvery n`: consecutive chunks of size `n`, last chunk
possibly shorter.  (Ramda raises for `n ≤ 0`; the call site guards with
JS truthiness, so only `n ≥ 1` is reachable.) -/
def splitEvery (n : Nat) (xs : List α) : List (List α) :=
  splitEveryGo n xs.length xs

/-- The malformed debug line of lines 107-109:
the template `...with ${AZURE.SUBSCRIPTION_CHUNKS}} 1} chunk(s)`
interpolates the raw config value and then keeps the literal tail
"\x7d 1\x7d chunk(s)". -/
def consumptionDebugLine (chunks : Option Nat) : String :=
  "Fetching Azure consumption data with " ++ jsShowOptNat chunks ++ "\x7d 1\x7d chunk(s)"

/-- Modelled from the spec: the debug line the code intended to log —
the configured batch size, defaulting to 1 when unset (the `|| 1`
pattern used by the neighbouring `console.time` calls). -/
def intendedConsumptionDebugLine (chunks : Option Nat) : String :=
  "Fetching Azure consumption data with " ++
    toString (match chunks with | none => 1 | some n => if n = 0 then 1 else n) ++ " chunk(s)"

/-- The batch structure chosen by lines 104-106: `splitEvery` chunks when
`SUBSCRIPTION_CHUNKS` is truthy, otherwise one single batch. -/
def chunkRequests (AZURE : AzureConfig) (requests : List α) : List (List α) :=
  if jsTruthy AZURE.SUBSCRIPTION_CHUNKS then
    splitEvery (AZURE.SUBSCRIPTION_CHUNKS.getD 0) requests
  else [requests]

/-- `getDataFromConsumptionManagement` (lines 78-124), value level.
`Promise.all` resolves with results in issue order, so the concurrent
batch is collapsed to an in-order `map`; the faithfulness of that
collapse is proved separately on the scheduled semantics. -/
def getDataFromConsumptionManagement (a : AzureAccount) (w : World)
    (AZURE : AzureConfig) (startDate endDate : Nat) (grouping : GroupBy) :
    MethodResult (List EstimationResult) :=
  let r := getSubscriptions a w
  match r.value with
  | .error e => ⟨.error e, r.account, r.log⟩
  | .ok subs =>
      let run := runSubscriptionRequest a w startDate endDate grouping
      if AZURE.CONSUMPTION_CHUNKS_DAYS then
        -- lines 95-101: synchronously fetch each subscription
        let outs := subs.map run
        ⟨.ok (outs.map Prod.fst).flatten, r.account, r.log ++ (outs.map Prod.snd).flatten⟩
      else
        -- lines 103-123: fetch all or chunked subscriptions
        let chunked := chunkRequests AZURE subs
        let dbg := LogEntry.debug (consumptionDebugLine AZURE.SUBSCRIPTION_CHUNKS)
        let outs := chunked.map (fun batch => batch.map run)
        ⟨.ok (outs.map (fun b => (b.map Prod.fst).flatten)).flatten,
         r.account,
         r.log ++ [dbg] ++ (outs.map (fun b => (b.map Prod.snd).flatten)).flatten⟩

/-- `initializeAccount` (lines 50-57): assign the credential, then the
subscription client; any failure is wrapped with context and re-raised.
The credential provider and the client constructor are the two fallible
steps of the `try` block. -/
def initializeAccount (provider : Except String Credential)
    (mkClient : Credential → Except String SubscriptionClient)
    (a : AzureAccount) : Except String Unit × AzureAccount :=
  match provider with
  | .error e => (.error ("Azure initializeAccount failed. Reason: " ++ e), a)
  | .ok c =>
      let a' := { a with credentials := some c }
      match mkClient c with
      | .error e => (.error ("Azure initializeAccount failed. Reason: " ++ e), a')
      | .ok cl => (.ok (), { a' with subscriptionClient := some cl })

/-- Modelled from the spec: input row of the caller-supplied lookup
table (`LookupTableInput` lives in the common package, not under src);
opaque to this layer. -/
structure LookupTableInput where
  raw : String
deriving DecidableEq, Repr

/-- Modelled from the spec: output row of the lookup-table estimation
path (shape owned by the external estimator). -/
structure LookupTableOutput where
  raw : String
  lifespanCoefficient : Nat
deriving DecidableEq, Repr

/-- Modelled from the spec: the fixed coefficient constants
(`AZURE_CLOUD_CONSTANTS` lives in `../domain`, not under src) passed
unchanged into the estimator. -/
structure CloudConstants where
  SSDCOEFFICIENT : Nat
  HDDCOEFFICIENT : Nat
  NETWORKING_COEFFICIENT : Nat
  MEMORY_COEFFICIENT : Nat
  SERVER_EXPECTED_LIFESPAN : Nat
deriving DecidableEq, Repr

/-- Modelled from the spec: the Azure coefficient table (exact numbers
are owned by the domain module, not under src; only their fixedness
matters to the claims). -/
def AZURE_CLOUD_CONSTANTS : CloudConstants :=
  { SSDCOEFFICIENT := 1, HDDCOEFFICIENT := 2, NETWORKING_COEFFICIENT := 3,
    MEMORY_COEFFICIENT := 4, SERVER_EXPECTED_LIFESPAN := 5 }

/-- The estimator service constructed by the static path, holding only
the coefficient constants it was built from. -/
structure ConsumptionManagementService where
  constants : CloudConstants
deriving DecidableEq, Repr

/-- Modelled from the spec: `getEstimatesFromInputData` of the external
`ConsumptionManagement` library (not under src) — a pure function
mapping usage rows and coefficients to estimation results. -/
def ConsumptionManagementService.getEstimatesFromInputData
    (svc : ConsumptionManagementService) (inputData : List LookupTableInput) :
    List LookupTableOutput :=
  inputData.map (fun row => ⟨row.raw, svc.constants.SERVER_EXPECTED_LIFESPAN⟩)

/-- A record of one outgoing network call; the static path makes none. -/
abbrev NetworkCall := String

/-- Static `getDataFromConsumptionManagementInputData` (lines 142-157).
The embedding passes the ambient instance state and world explicitly so
that independence from them is statable; the source is a static method
that touches neither, so neither parameter is consumed, and the list of
network calls it performs is empty. -/
def getDataFromConsumptionManagementInputData (a : AzureAccount) (w : World)
    (inputData : List LookupTableInput) : List LookupTableOutput × List NetworkCall :=
  let _ := a
  let _ := w
  let consumptionManagementService : ConsumptionManagementService :=
    { constants := AZURE_CLOUD_CONSTANTS }
  (consumptionManagementService.getEstimatesFromInputData inputData, [])

/-! ## Execution-order model

The concurrency claims are about when tasks are issued and when they
resolve.  An execution is abstracted to a trace of `start`/`finish`
events over task indices; a completion *schedule* (one permutation per
concurrent batch) is chosen adversarially. -/

/-- Issue (`start`) and resolution (`finish`) of per-subscription task `i`. -/
inductive Event where
  | start (i : Nat)
  | finish (i : Nat)
deriving DecidableEq, Repr

/-- Trace of the sequential loop of lines 97-99: each task is awaited to
completion before the next is started. -/
def seqTraceAux : List Nat → List Event
  | [] => []
  | i :: is => Event.start i :: Event.finish i :: seqTraceAux is

/-- Trace of the `chunkByDay` branch over tasks `0 .. n-1`. -/
def seqTrace (n : Nat) : List Event :=
  seqTraceAux (List.range n)

/-- Trace of one `Promise.all` batch (line 116): all tasks of the batch
are issued synchronously in order, then they complete in the order given
by the schedule `sched` (a permutation of the batch). -/
def batchTrace (batch sched : List Nat) : List Event :=
  batch.map Event.start ++ sched.map Event.finish

/-- Trace of the batch loop of lines 114-118: the `await` is a hard
barrier, so the segments of successive (batch, schedule) pairs are
concatenated. -/
def chunkedTrace : List (List Nat × List Nat) → List Event
  | [] => []
  | pr :: rest => batchTrace pr.1 pr.2 ++ chunkedTrace rest

/-- The batches of task indices (`0 .. n-1` in subscription order) built
by lines 104-106 for the non-`chunkByDay` path. -/
def consumptionBatches (AZURE : AzureConfig) (n : Nat) : List (List Nat) :=
  chunkRequests AZURE (List.range n)

/-- Trace of `getDataFromConsumptionManagement` over `n` tasks, mirroring
the branch structure of lines 94-118; `scheds` gives the adversarial
completion order of each concurrent batch. -/
def consumptionTrace (AZURE : AzureConfig) (n : Nat) (scheds : List (List Nat)) :
    List Event :=
  if AZURE.CONSUMPTION_CHUNKS_DAYS then seqTrace n
  else chunkedTrace ((consumptionBatches AZURE n).zip scheds)

/-- +1 at a task issue, -1 at a task resolution. -/
def delta : Event → Int
  | .start _ => 1
  | .finish _ => -1

/-- Number of tasks in flight after the events of `tr`. -/
def inFlight (tr : List Event) : Int :=
  (tr.map delta).sum

/-- `p` is a prefix of `l`. -/
def ListPrefix (p l : List α) : Prop :=
  ∃ t, p ++ t = l

/-- Index of the first occurrence of `x` in `l` (length of `l` when
absent). -/
def firstIdx [DecidableEq α] (l : List α) (x : α) : Nat :=
  match l with
  | [] => 0
  | y :: t => if y = x then 0 else firstIdx t x + 1

/-! ## Completion-order model of `Promise.all`

`Promise.all` resolves with the results placed at the index of the
promise that produced them, whatever the completion order.  The model
collects `(index, result)` pairs in schedule order and reassembles them
by index. -/

/-- Results tagged with their task index, listed in completion order. -/
def promiseAllCollect (results : List α) (sched : List Nat) : List (Nat × α) :=
  sched.filterMap (fun i => (results.get? i).map (fun r => (i, r)))

/-- Reassembly by issue index, as `Promise.all` does. -/
def reassemble (n : Nat) (pairs : List (Nat × α)) : List α :=
  (List.range n).filterMap (fun i => (pairs.find? (fun p => p.1 == i)).map Prod.snd)

/-- One batch of line 116 under an explicit completion schedule. -/
def runBatchScheduled (run : Subscription → List EstimationResult × List LogEntry)
    (batch : List Subscription) (sched : List Nat) : List EstimationResult :=
  (reassemble batch.length
    (promiseAllCollect (batch.map (fun s => (run s).1)) sched)).flatten

/-- `getDataFromConsumptionManagement`, value level, with the completion
order of every concurrent batch made explicit (same branch structure as
lines 94-123). -/
def getDataFromConsumptionManagementScheduled (a : AzureAccount) (w : World)
    (AZURE : AzureConfig) (startDate endDate : Nat) (grouping : GroupBy)
    (scheds : List (List Nat)) : Except String (List EstimationResult) :=
  match (getSubscriptions a w).value with
  | .error e => .error e
  | .ok subs =>
      let run := runSubscriptionRequest a w startDate endDate grouping
      if AZURE.CONSUMPTION_CHUNKS_DAYS then
        .ok (subs.map (fun s => (run s).1)).flatten
      else
        let chunked := chunkRequests AZURE subs
        .ok ((chunked.zip scheds).map (fun pr => runBatchScheduled run pr.1 pr.2)).flatten

/-! ## Concrete fixtures

Small concrete accounts, subscriptions and worlds used to witness the
hypotheses of the theorems below on evaluable inputs. -/

/-- A concrete credential. -/
def credTest : Credential := Credential.clientSecret "token"

/-- A concrete subscription client. -/
def clientTest : SubscriptionClient := { credential := credTest }

/-- An initialized account. -/
def accountTest : AzureAccount :=
  { credentials := some credTest, subscriptionClient := some clientTest }

/-- Subscriptions A, B, C. -/
def subA : Subscription := ⟨"sub-a", "A"⟩

/-- Subscription B. -/
def subB : Subscription := ⟨"sub-b", "B"⟩

/-- Subscription C. -/
def subC : Subscription := ⟨"sub-c", "C"⟩

/-- A world whose subscription listing is empty. -/
def wEmpty : World :=
  { listSubscriptions := fun _ => .ok []
    fetchConsumption := fun _ _ _ _ _ => .ok []
    fetchAdvisor := fun _ _ => .ok [] }

/-- A world with three subscriptions where exactly B's fetches fail. -/
def wFailB : World :=
  { listSubscriptions := fun _ => .ok [subA, subB, subC]
    fetchConsumption := fun _ _ _ sid _ =>
      if sid = "sub-b" then .error "boom"
      else if sid = "sub-a" then .ok [⟨1⟩] else .ok [⟨3⟩]
    fetchAdvisor := fun _ sid =>
      if sid = "sub-b" then .error "advisor boom" else .ok [⟨7⟩] }

/-- A world with three subscriptions where every fetch succeeds. -/
def wOk : World :=
  { listSubscriptions := fun _ => .ok [subA, subB, subC]
    fetchConsumption := fun _ _ _ sid _ =>
      if sid = "sub-a" then .ok [⟨1⟩]
      else if sid = "sub-b" then .ok [⟨2⟩, ⟨3⟩] else .ok [⟨4⟩]
    fetchAdvisor := fun _ _ => .ok [] }

/-- The per-subscription results of `wOk`. -/
def resOk : Subscription → List EstimationResult := fun s =>
  if s.subscriptionId = "sub-a" then [⟨1⟩]
  else if s.subscriptionId = "sub-b" then [⟨2⟩, ⟨3⟩] else [⟨4⟩]

/-- A client constructor that always fails (simulated constructor error). -/
def mkClientFail : Credential → Except String SubscriptionClient :=
  fun _ => .error "ctor boom"

/-- The ordinary client constructor (`new SubscriptionClient(credential)`). -/
def mkClientOk : Credential → Except String SubscriptionClient :=
  fun c => .ok { credential := c }

/-! ## Helper lemmas -/

deriving instance DecidableEq for Except

lemma splitEveryGo_flatten (n : Nat) (hn : 1 ≤ n) :
    ∀ (fuel : Nat) (xs : List α), xs.length ≤ fuel →
      (splitEveryGo n fuel xs).flatten = xs := by
  intro fuel
  induction fuel with
  | zero =>
      intro xs hxs
      cases xs with
      | nil => simp [splitEveryGo]
      | cons x rest => simp at hxs
  | succ fuel ih =>
      intro xs hxs
      cases xs with
      | nil => simp [splitEveryGo]
      | cons x rest =>
          have hdrop : ((x :: rest).drop n).length ≤ fuel := by
            rw [List.length_drop]
            simp only [List.length_cons] at hxs ⊢
            omega
          simp only [splitEveryGo, List.flatten_cons, ih _ hdrop]
          exact List.take_append_drop n (x :: rest)

lemma splitEvery_flatten (n : Nat) (hn : 1 ≤ n) (xs : List α) :
    (splitEvery n xs).flatten = xs :=
  splitEveryGo_flatten n hn xs.length xs (Nat.le_refl _)

/-- Whatever the configuration, the batch structure of lines 104-106
partitions the request list: flattening it back yields the requests in
their original order. -/
lemma chunkRequests_flatten (AZURE : AzureConfig) (xs : List α) :
    (chunkRequests AZURE xs).flatten = xs := by
  unfold chunkRequests
  cases hc : AZURE.SUBSCRIPTION_CHUNKS with
  | none => simp [jsTruthy]
  | some k =>
      cases hk : k with
      | zero => simp [jsTruthy]
      | succ k' =>
          simp only [jsTruthy, Option.getD_some]
          rw [if_pos (by simp)]
          exact splitEvery_flatten _ (Nat.succ_le_succ (Nat.zero_le _)) xs

lemma flatten_map_batches (L : List (List α)) (f : α → List β) :
    (L.map (fun b => (b.map f).flatten)).flatten = (L.flatten.map f).flatten := by
  calc (L.map (fun b => (b.map f).flatten)).flatten
      = ((L.map (List.map f)).map List.flatten).flatten := by
        rw [List.map_map]; rfl
    _ = (L.map (List.map f)).flatten.flatten := (List.flatten_flatten).symm
    _ = (L.flatten.map f).flatten := by rw [List.map_flatten f L]

lemma mem_promiseAllCollect {results : List α} {sched : List Nat} {i : Nat} {r : α}
    (h : (i, r) ∈ promiseAllCollect results sched) : results.get? i = some r := by
  unfold promiseAllCollect at h
  rcases List.mem_filterMap.1 h with ⟨j, _, hj⟩
  rcases Option.map_eq_some'.1 hj with ⟨r', hr', heq⟩
  cases heq
  exact hr'

lemma promiseAllCollect_exists {results : List α} {sched : List Nat} {i : Nat}
    (hi : i ∈ sched) (hlt : i < results.length) :
    ∃ r, (i, r) ∈ promiseAllCollect results sched := by
  rcases List.get?_eq_get hlt with hget
  exact ⟨results.get ⟨i, hlt⟩,
    List.mem_filterMap.2 ⟨i, hi, by rw [hget]; rfl⟩⟩

/-- Reassembling index-tagged results collected in any completion order
that is a permutation of the issue order recovers the results in issue
order: the core order-independence fact of `Promise.all`. -/
lemma reassemble_promiseAllCollect {results : List α} {sched : List Nat}
    (hperm : sched.Perm (List.range results.length)) :
    reassemble results.length (promiseAllCollect results sched) = results := by
  unfold reassemble
  have hpoint : ∀ i ∈ List.range results.length,
      ((promiseAllCollect results sched).find? (fun p => p.1 == i)).map Prod.snd =
        results.get? i := by
    intro i hi
    have hilt : i < results.length := List.mem_range.1 hi
    cases hfind : (promiseAllCollect results sched).find? (fun p => p.1 == i) with
    | some p =>
        have hkey : p.1 = i := by
          have h := List.find?_some hfind
          simpa using h
        have hmem := List.mem_of_find?_eq_some hfind
        have : results.get? p.1 = some p.2 := by
          obtain ⟨p1, p2⟩ := p
          exact mem_promiseAllCollect hmem
        rw [hkey] at this
        exact this.symm
    | none =>
        exfalso
        have hins : i ∈ sched := hperm.mem_iff.2 hi
        rcases promiseAllCollect_exists hins hilt with ⟨r, hr⟩
        have := List.find?_eq_none.1 hfind _ hr
        simp at this
  calc (List.range results.length).filterMap
        (fun i => ((promiseAllCollect results sched).find? (fun p => p.1 == i)).map Prod.snd)
      = (List.range results.length).filterMap (fun i => results.get? i) :=
        List.filterMap_congr hpoint
    _ = results := by
        clear hperm hpoint sched
        induction results with
        | nil => simp
        | cons a l ih =>
            rw [List.length_cons, List.range_succ_eq_map]
            simp only [List.filterMap_cons, List.get?]
            rw [List.filterMap_map]
            have : (fun i => (a :: l).get? i) ∘ Nat.succ = fun i => l.get? i := by
              funext i; rfl
            rw [this, ih]

lemma firstIdx_lt_length [DecidableEq α] {l : List α} {x : α} (h : x ∈ l) :
    firstIdx l x < l.length := by
  induction l with
  | nil => cases h
  | cons y t ih =>
      by_cases hyx : y = x
      · simp [firstIdx, hyx]
      · have hxt : x ∈ t := by
          cases List.mem_cons.1 h with
          | inl h' => exact absurd h'.symm hyx
          | inr h' => exact h'
        simp only [firstIdx, if_neg hyx, List.length_cons]
        exact Nat.succ_lt_succ (ih hxt)

lemma firstIdx_append_left [DecidableEq α] {l₁ : List α} {x : α} (h : x ∈ l₁)
    (l₂ : List α) : firstIdx (l₁ ++ l₂) x = firstIdx l₁ x := by
  induction l₁ with
  | nil => cases h
  | cons y t ih =>
      by_cases hyx : y = x
      · simp [firstIdx, hyx]
      · have hxt : x ∈ t := by
          cases List.mem_cons.1 h with
          | inl h' => exact absurd h'.symm hyx
          | inr h' => exact h'
        simp [firstIdx, if_neg hyx, ih hxt]

lemma firstIdx_append_right [DecidableEq α] {l₁ : List α} {x : α} (h : x ∉ l₁)
    (l₂ : List α) : firstIdx (l₁ ++ l₂) x = l₁.length + firstIdx l₂ x := by
  induction l₁ with
  | nil => simp [firstIdx]
  | cons y t ih =>
      have hyx : y ≠ x := fun he => h (he ▸ List.mem_cons_self y t)
      have hxt : x ∉ t := fun hm => h (List.mem_cons_of_mem y hm)
      show firstIdx (y :: (t ++ l₂)) x = (y :: t).length + firstIdx l₂ x
      simp only [firstIdx, if_neg hyx, List.length_cons, ih hxt]
      omega

/-- Any prefix of a strictly sequential trace has at most one task in
flight. -/
lemma seqTraceAux_inFlight_le_one (is : List Nat) :
    ∀ p, ListPrefix p (seqTraceAux is) → inFlight p ≤ 1 := by
  induction is with
  | nil =>
      intro p hp
      rcases hp with ⟨t, ht⟩
      have : p = [] := by
        cases p with
        | nil => rfl
        | cons e p' => simp [seqTraceAux] at ht
      subst this
      simp [inFlight]
  | cons i is ih =>
      intro p hp
      rcases hp with ⟨t, ht⟩
      cases p with
      | nil => simp [inFlight]
      | cons e p' =>
          simp only [seqTraceAux, List.cons_append] at ht
          injection ht with he ht
          subst he
          cases p' with
          | nil => simp [inFlight, delta]
          | cons e' p'' =>
              simp only [List.cons_append] at ht
              injection ht with he' ht
              subst he'
              have h2 := ih p'' ⟨t, ht⟩
              simp only [inFlight, List.map_cons, List.sum_cons, delta] at h2 ⊢
              omega

/-- Tasks issued in one `Promise.all` batch and resolved under a
permutation schedule: membership facts of the batch segment. -/
lemma finish_mem_batchTrace {batch sched : List Nat} {i : Nat} (h : i ∈ sched) :
    Event.finish i ∈ batchTrace batch sched :=
  List.mem_append.2 (Or.inr (List.mem_map.2 ⟨i, h, rfl⟩))

lemma finish_not_mem_batchTrace {batch sched : List Nat} {i : Nat} (h : i ∉ sched) :
    Event.finish i ∉ batchTrace batch sched := by
  intro hmem
  cases List.mem_append.1 hmem with
  | inl hl =>
      rcases List.mem_map.1 hl with ⟨j, _, hj⟩
      cases hj
  | inr hr =>
      rcases List.mem_map.1 hr with ⟨j, hjm, hj⟩
      cases hj
      exact h hjm

lemma start_not_mem_batchTrace {batch sched : List Nat} {j : Nat} (h : j ∉ batch) :
    Event.start j ∉ batchTrace batch sched := by
  intro hmem
  cases List.mem_append.1 hmem with
  | inl hl =>
      rcases List.mem_map.1 hl with ⟨j', hjm, hj⟩
      cases hj
      exact h hjm
  | inr hr =>
      rcases List.mem_map.1 hr with ⟨j', _, hj⟩
      cases hj

/-- Barrier property of the batch loop: with pairwise-disjoint batches
and per-batch completion schedules, the resolution of any task of an
earlier batch strictly precedes the issue of any task of a later batch
in the execution trace. -/
lemma chunkedTrace_barrier :
    ∀ (pairs : List (List Nat × List Nat)),
      (pairs.map Prod.fst).Pairwise List.Disjoint →
      (∀ pr ∈ pairs, List.Perm pr.2 pr.1) →
      ∀ p q prP prQ i j, p < q →
        pairs.get? p = some prP → pairs.get? q = some prQ →
        i ∈ prP.1 → j ∈ prQ.1 →
        firstIdx (chunkedTrace pairs) (Event.finish i) <
          firstIdx (chunkedTrace pairs) (Event.start j) := by
  intro pairs
  induction pairs with
  | nil =>
      intro _ _ p q prP prQ i j _ hp _ _ _
      simp at hp
  | cons pr rest ih =>
      intro hdisj hperm p q prP prQ i j hpq hp hq hi hj
      have hdisj0 : List.Pairwise List.Disjoint (pr.1 :: rest.map Prod.fst) := by
        simpa using hdisj
      have hdisj' := List.pairwise_cons.1 hdisj0
      cases p with
      | zero =>
          -- the earlier batch is the head segment
          have hprP : pr = prP := by simpa using hp
          cases hprP
          obtain ⟨q', rfl⟩ : ∃ q', q = q' + 1 := ⟨q - 1, by omega⟩
          have hqr : rest.get? q' = some prQ := by simpa using hq
          have hQmem : prQ ∈ rest := List.get?_mem hqr
          have hdisjPQ : List.Disjoint pr.1 prQ.1 :=
            hdisj'.1 prQ.1 (List.mem_map.2 ⟨prQ, hQmem, rfl⟩)
          have hjne : j ∉ pr.1 := fun hjP => hdisjPQ hjP hj
          have hiS : i ∈ pr.2 := ((hperm pr (List.mem_cons_self _ _)).mem_iff).2 hi
          have hfin : Event.finish i ∈ batchTrace pr.1 pr.2 := finish_mem_batchTrace hiS
          have hstart : Event.start j ∉ batchTrace pr.1 pr.2 := start_not_mem_batchTrace hjne
          show firstIdx (batchTrace pr.1 pr.2 ++ chunkedTrace rest) _ <
            firstIdx (batchTrace pr.1 pr.2 ++ chunkedTrace rest) _
          rw [firstIdx_append_left hfin, firstIdx_append_right hstart]
          exact Nat.lt_of_lt_of_le (firstIdx_lt_length hfin) (Nat.le_add_right _ _)
      | succ p' =>
          obtain ⟨q', rfl⟩ : ∃ q', q = q' + 1 := ⟨q - 1, by omega⟩
          have hpr : rest.get? p' = some prP := by simpa using hp
          have hqr : rest.get? q' = some prQ := by simpa using hq
          have hPmem : prP ∈ rest := List.get?_mem hpr
          have hQmem : prQ ∈ rest := List.get?_mem hqr
          have hdisjP : List.Disjoint pr.1 prP.1 :=
            hdisj'.1 prP.1 (List.mem_map.2 ⟨prP, hPmem, rfl⟩)
          have hdisjQ : List.Disjoint pr.1 prQ.1 :=
            hdisj'.1 prQ.1 (List.mem_map.2 ⟨prQ, hQmem, rfl⟩)
          have hine : i ∉ pr.2 := by
            intro hiS
            have hiP : i ∈ pr.1 := (hperm pr (List.mem_cons_self _ _)).mem_iff.1 hiS
            exact hdisjP hiP hi
          have hjne : j ∉ pr.1 := fun hjP => hdisjQ hjP hj
          have hfinNot : Event.finish i ∉ batchTrace pr.1 pr.2 := finish_not_mem_batchTrace hine
          have hstartNot : Event.start j ∉ batchTrace pr.1 pr.2 := start_not_mem_batchTrace hjne
          have hih := ih (by simpa using hdisj'.2)
            (fun x hx => hperm x (List.mem_cons_of_mem _ hx))
            p' q' prP prQ i j (by omega) hpr hqr hi hj
          show firstIdx (batchTrace pr.1 pr.2 ++ chunkedTrace rest) _ <
            firstIdx (batchTrace pr.1 pr.2 ++ chunkedTrace rest) _
          rw [firstIdx_append_right hfinNot, firstIdx_append_right hstartNot]
          omega

lemma map_batches_proj (L : List (List α)) (f : α → π) (g : π → List β) :
    ((L.map (fun batch => batch.map f)).map (fun b => (b.map g).flatten)).flatten =
      (L.flatten.map (fun s => g (f s))).flatten := by
  have he : (L.map (fun batch => batch.map f)).map (fun b => (b.map g).flatten)
      = L.map (fun batch => (batch.map (fun s => g (f s))).flatten) := by
    rw [List.map_map]
    apply List.map_congr_left
    intro batch _
    show ((batch.map f).map g).flatten = _
    rw [List.map_map]
    rfl
  rw [he, flatten_map_batches]

/-- Value and log shape of `getDataFromAdvisorManagement` on a
successful listing: the value is the flattening, in subscription order,
of the per-subscription task results, and the per-task logs form a
suffix of the call's log. -/
lemma advisor_unfold (a : AzureAccount) (w : World) (subs : List Subscription)
    (h : w.listSubscriptions a.subscriptionClient = .ok subs) :
    (getDataFromAdvisorManagement a w).value =
      .ok (subs.map (fun s => (runAdvisorRequest a w s).1)).flatten ∧
    ∃ pre, (getDataFromAdvisorManagement a w).log =
      pre ++ (subs.map (fun s => (runAdvisorRequest a w s).2)).flatten := by
  constructor
  · simp only [getDataFromAdvisorManagement, getSubscriptions, h]
    rw [List.map_map]
    rfl
  · refine ⟨(getSubscriptions a w).log, ?_⟩
    simp only [getDataFromAdvisorManagement, getSubscriptions, h]
    rw [List.map_map]
    rfl

/-- Value and log shape of `getDataFromConsumptionManagement` on a
successful listing, for every configuration: the value is the
flattening, in subscription order, of the per-subscription task results
(the batch structure cancels out), and the per-task logs form a suffix
of the call's log. -/
lemma consumption_unfold (a : AzureAccount) (w : World) (AZURE : AzureConfig)
    (startDate endDate : Nat) (grouping : GroupBy) (subs : List Subscription)
    (h : w.listSubscriptions a.subscriptionClient = .ok subs) :
    (getDataFromConsumptionManagement a w AZURE startDate endDate grouping).value =
      .ok (subs.map
        (fun s => (runSubscriptionRequest a w startDate endDate grouping s).1)).flatten ∧
    ∃ pre, (getDataFromConsumptionManagement a w AZURE startDate endDate grouping).log =
      pre ++ (subs.map
        (fun s => (runSubscriptionRequest a w startDate endDate grouping s).2)).flatten := by
  by_cases hd : AZURE.CONSUMPTION_CHUNKS_DAYS
  · constructor
    · simp only [getDataFromConsumptionManagement, getSubscriptions, h, hd, if_true]
      rw [List.map_map]
      rfl
    · refine ⟨(getSubscriptions a w).log, ?_⟩
      simp only [getDataFromConsumptionManagement, getSubscriptions, h, hd, if_true]
      rw [List.map_map]
      rfl
  · constructor
    · simp only [getDataFromConsumptionManagement, getSubscriptions, h, hd,
        Bool.false_eq_true, if_false]
      rw [map_batches_proj, chunkRequests_flatten]
    · refine ⟨(getSubscriptions a w).log ++
        [LogEntry.debug (consumptionDebugLine AZURE.SUBSCRIPTION_CHUNKS)], ?_⟩
      simp only [getDataFromConsumptionManagement, getSubscriptions, h, hd,
        Bool.false_eq_true, if_false]
      rw [map_batches_proj, chunkRequests_flatten, List.append_assoc]

/-! ## Claim theorems -/

/-- C5: if subscription listing yields an empty sequence, then
`getDataFromAdvisorManagement` and `getDataFromConsumptionManagement`
each return an empty sequence without raising an error, and
`getSubscriptions` logs the permissions warning (a warning, not an
error). -/
theorem claim_C5_empty_listing (a : AzureAccount) (w : World)
    (h : w.listSubscriptions a.subscriptionClient = .ok []) :
    (getSubscriptions a w).value = .ok [] ∧
    (getSubscriptions a w).log = [LogEntry.warn noSubscriptionsWarning] ∧
    (getDataFromAdvisorManagement a w).value = .ok [] ∧
    LogEntry.warn noSubscriptionsWarning ∈ (getDataFromAdvisorManagement a w).log ∧
    ∀ AZURE startDate endDate grouping,
      (getDataFromConsumptionManagement a w AZURE startDate endDate grouping).value =
        .ok [] ∧
      LogEntry.warn noSubscriptionsWarning ∈
        (getDataFromConsumptionManagement a w AZURE startDate endDate grouping).log := by
  refine ⟨?_, ?_, ?_, ?_, ?_⟩
  · simp [getSubscriptions, h]
  · simp [getSubscriptions, h]
  · exact (advisor_unfold a w [] h).1
  · simp [getDataFromAdvisorManagement, getSubscriptions, h]
  · intro AZURE startDate endDate grouping
    constructor
    · exact (consumption_unfold a w AZURE startDate endDate grouping [] h).1
    · by_cases hd : AZURE.CONSUMPTION_CHUNKS_DAYS <;>
        simp [getDataFromConsumptionManagement, getSubscriptions, h, hd]

/-- C5 witness: the hypothesis holds at the concrete empty world and the
conclusion follows by the theorem. -/
theorem claim_C5_empty_listing_witness :
    wEmpty.listSubscriptions accountTest.subscriptionClient = .ok [] ∧
    ((getSubscriptions accountTest wEmpty).value = .ok [] ∧
     (getSubscriptions accountTest wEmpty).log = [LogEntry.warn noSubscriptionsWarning] ∧
     (getDataFromAdvisorManagement accountTest wEmpty).value = .ok [] ∧
     LogEntry.warn noSubscriptionsWarning ∈ (getDataFromAdvisorManagement accountTest wEmpty).log ∧
     ∀ AZURE startDate endDate grouping,
       (getDataFromConsumptionManagement accountTest wEmpty AZURE startDate endDate
         grouping).value = .ok [] ∧
       LogEntry.warn noSubscriptionsWarning ∈
         (getDataFromConsumptionManagement accountTest wEmpty AZURE startDate endDate
           grouping).log) :=
  ⟨rfl, claim_C5_empty_listing accountTest wEmpty rfl⟩

/-- C6: a failure of credential acquisition or of client construction
makes `initializeAccount` fail with an error whose message contains the
underlying reason string; on success both fields are assigned. -/
theorem claim_C6_initialization (a : AzureAccount)
    (mkClient : Credential → Except String SubscriptionClient) :
    (∀ e : String, ∃ m, (initializeAccount (.error e) mkClient a).1 = .error m ∧
      ∃ pre post, m = pre ++ e ++ post) ∧
    (∀ (c : Credential) (e : String), mkClient c = .error e →
      ∃ m, (initializeAccount (.ok c) mkClient a).1 = .error m ∧
        ∃ pre post, m = pre ++ e ++ post) ∧
    (∀ (c : Credential) (cl : SubscriptionClient), mkClient c = .ok cl →
      initializeAccount (.ok c) mkClient a =
        (.ok (), { a with credentials := some c, subscriptionClient := some cl })) := by
  refine ⟨?_, ?_, ?_⟩
  · intro e
    exact ⟨"Azure initializeAccount failed. Reason: " ++ e, rfl,
      "Azure initializeAccount failed. Reason: ", "", by simp⟩
  · intro c e hc
    refine ⟨"Azure initializeAccount failed. Reason: " ++ e, ?_,
      "Azure initializeAccount failed. Reason: ", "", by simp⟩
    simp [initializeAccount, hc]
  · intro c cl hc
    simp [initializeAccount, hc]

/-- C6 witness: concrete credential failure and client-constructor
failure with the reason in the wrapped message, plus a successful run. -/
theorem claim_C6_initialization_witness :
    (mkClientFail credTest = .error "ctor boom") ∧
    (∃ m, (initializeAccount (.ok credTest) mkClientFail {}).1 = .error m ∧
      ∃ pre post, m = pre ++ "ctor boom" ++ post) ∧
    (mkClientOk credTest = .ok clientTest) ∧
    (initializeAccount (.ok credTest) mkClientOk {} =
      (.ok (), { credentials := some credTest, subscriptionClient := some clientTest })) :=
  ⟨rfl,
   (claim_C6_initialization {} mkClientFail).2.1 credTest "ctor boom" rfl,
   rfl,
   (claim_C6_initialization {} mkClientOk).2.2 credTest clientTest rfl⟩

/-- C8: the static offline path is a pure function of its input: it is
independent of the instance state and of the ambient world, and it
performs no network calls. -/
theorem claim_C8_offline_purity (a₁ a₂ : AzureAccount) (w₁ w₂ : World)
    (inputData : List LookupTableInput) :
    getDataFromConsumptionManagementInputData a₁ w₁ inputData =
      getDataFromConsumptionManagementInputData a₂ w₂ inputData ∧
    (getDataFromConsumptionManagementInputData a₁ w₁ inputData).2 = [] :=
  ⟨rfl, rfl⟩

/-- C9: the debug line of lines 107-109 does not log the intended
value: on an unset `SUBSCRIPTION_CHUNKS` the code logs the malformed
"...undefined\x7d 1\x7d chunk(s)" line (and that exact line reaches the
log of `getDataFromConsumptionManagement`), where the intended text was
"...1 chunk(s)"; with the value set to 2 the logged text is likewise not
the intended one. -/
theorem claim_C9_debug_line : consumptionDebugLine none =
      "Fetching Azure consumption data with undefined\x7d 1\x7d chunk(s)" ∧
    intendedConsumptionDebugLine none =
      "Fetching Azure consumption data with 1 chunk(s)" ∧
    consumptionDebugLine none ≠ intendedConsumptionDebugLine none ∧
    consumptionDebugLine (some 2) ≠ intendedConsumptionDebugLine (some 2) ∧
    LogEntry.debug (consumptionDebugLine none) ∈
      (getDataFromConsumptionManagement accountTest wEmpty ⟨false, none⟩ 0 1
        GroupBy.day).log := by
  refine ⟨rfl, rfl, by decide, by decide, ?_⟩
  simp [getDataFromConsumptionManagement, getSubscriptions, wEmpty, chunkRequests, jsTruthy]

/-- C10: no public operation mutates the facade's credential or
subscription-client fields: every method returns the instance state it
was given. -/
theorem claim_C10_state_immutable (a : AzureAccount) (w : World)
    (AZURE : AzureConfig) (startDate endDate : Nat) (grouping : GroupBy) :
    (getSubscriptions a w).account = a ∧
    (getDataFromAdvisorManagement a w).account = a ∧
    (getDataFromConsumptionManagement a w AZURE startDate endDate grouping).account = a := by
  have hs : (getSubscriptions a w).account = a := by
    unfold getSubscriptions
    cases w.listSubscriptions a.subscriptionClient <;> rfl
  refine ⟨hs, ?_, ?_⟩
  · unfold getDataFromAdvisorManagement
    cases hv : (getSubscriptions a w).value <;> simp [hv, hs]
  · unfold getDataFromConsumptionManagement
    cases hv : (getSubscriptions a w).value <;>
      by_cases hd : AZURE.CONSUMPTION_CHUNKS_DAYS <;> simp [hv, hs, hd]

/-- C1: a failing per-subscription fetch never aborts the overall call:
both operations still succeed, the failed subscription contributes an
empty sequence after a logged warning carrying its id and the reason,
and the result is the flattening of the per-subscription contributions
(empty at the failed ones). -/
theorem claim_C1_failure_isolation (a : AzureAccount) (w : World)
    (subs : List Subscription)
    (h : w.listSubscriptions a.subscriptionClient = .ok subs) :
    ((getDataFromAdvisorManagement a w).value =
        .ok (subs.map (fun s => (runAdvisorRequest a w s).1)).flatten ∧
      ∀ s ∈ subs, ∀ e, w.fetchAdvisor a.credentials s.subscriptionId = .error e →
        (runAdvisorRequest a w s).1 = [] ∧
        LogEntry.warn (advisorWarnMsg s.subscriptionId e) ∈
          (getDataFromAdvisorManagement a w).log) ∧
    (∀ AZURE startDate endDate grouping,
      (getDataFromConsumptionManagement a w AZURE startDate endDate grouping).value =
        .ok (subs.map
          (fun s => (runSubscriptionRequest a w startDate endDate grouping s).1)).flatten ∧
      ∀ s ∈ subs, ∀ e,
        w.fetchConsumption a.credentials startDate endDate s.subscriptionId grouping =
          .error e →
        (runSubscriptionRequest a w startDate endDate grouping s).1 = [] ∧
        LogEntry.warn (consumptionWarnMsg s.subscriptionId e) ∈
          (getDataFromConsumptionManagement a w AZURE startDate endDate grouping).log) := by
  constructor
  · refine ⟨(advisor_unfold a w subs h).1, ?_⟩
    intro s hs e he
    refine ⟨by simp [runAdvisorRequest, he], ?_⟩
    rcases (advisor_unfold a w subs h).2 with ⟨pre, hlog⟩
    rw [hlog]
    apply List.mem_append.2
    right
    apply List.mem_flatten.2
    refine ⟨(runAdvisorRequest a w s).2, List.mem_map.2 ⟨s, hs, rfl⟩, ?_⟩
    simp [runAdvisorRequest, he]
  · intro AZURE startDate endDate grouping
    refine ⟨(consumption_unfold a w AZURE startDate endDate grouping subs h).1, ?_⟩
    intro s hs e he
    refine ⟨by simp [runSubscriptionRequest, he], ?_⟩
    rcases (consumption_unfold a w AZURE startDate endDate grouping subs h).2 with ⟨pre, hlog⟩
    rw [hlog]
    apply List.mem_append.2
    right
    apply List.mem_flatten.2
    refine ⟨(runSubscriptionRequest a w startDate endDate grouping s).2,
      List.mem_map.2 ⟨s, hs, rfl⟩, ?_⟩
    simp [runSubscriptionRequest, he]

/-- C1 witness: subscriptions [A, B, C] with B's fetches failing; the
hypothesis holds by computation and the conclusion follows by the
theorem. -/
theorem claim_C1_failure_isolation_witness :
    wFailB.listSubscriptions accountTest.subscriptionClient = .ok [subA, subB, subC] ∧
    (((getDataFromAdvisorManagement accountTest wFailB).value =
        .ok ([subA, subB, subC].map
          (fun s => (runAdvisorRequest accountTest wFailB s).1)).flatten ∧
      ∀ s ∈ [subA, subB, subC], ∀ e,
        wFailB.fetchAdvisor accountTest.credentials s.subscriptionId = .error e →
        (runAdvisorRequest accountTest wFailB s).1 = [] ∧
        LogEntry.warn (advisorWarnMsg s.subscriptionId e) ∈
          (getDataFromAdvisorManagement accountTest wFailB).log) ∧
    (∀ AZURE startDate endDate grouping,
      (getDataFromConsumptionManagement accountTest wFailB AZURE startDate endDate
          grouping).value =
        .ok ([subA, subB, subC].map
          (fun s => (runSubscriptionRequest accountTest wFailB startDate endDate grouping
            s).1)).flatten ∧
      ∀ s ∈ [subA, subB, subC], ∀ e,
        wFailB.fetchConsumption accountTest.credentials startDate endDate s.subscriptionId
            grouping = .error e →
        (runSubscriptionRequest accountTest wFailB startDate endDate grouping s).1 = [] ∧
        LogEntry.warn (consumptionWarnMsg s.subscriptionId e) ∈
          (getDataFromConsumptionManagement accountTest wFailB AZURE startDate endDate
            grouping).log)) :=
  ⟨rfl, claim_C1_failure_isolation accountTest wFailB [subA, subB, subC] rfl⟩

lemma runBatchScheduled_eq (run : Subscription → List EstimationResult × List LogEntry)
    (batch : List Subscription) (sched : List Nat)
    (h : sched.Perm (List.range batch.length)) :
    runBatchScheduled run batch sched = (batch.map (fun s => (run s).1)).flatten := by
  unfold runBatchScheduled
  have hlen : (batch.map (fun s => (run s).1)).length = batch.length :=
    List.length_map _ _
  congr 1
  calc reassemble batch.length (promiseAllCollect (batch.map fun s => (run s).1) sched)
      = reassemble (batch.map fun s => (run s).1).length
          (promiseAllCollect (batch.map fun s => (run s).1) sched) := by rw [hlen]
    _ = batch.map (fun s => (run s).1) :=
        reassemble_promiseAllCollect (by rw [hlen]; exact h)

lemma scheduled_batches_eq (run : Subscription → List EstimationResult × List LogEntry) :
    ∀ (chunked : List (List Subscription)) (scheds : List (List Nat)),
      scheds.length = chunked.length →
      (∀ pr ∈ chunked.zip scheds, pr.2.Perm (List.range pr.1.length)) →
      (chunked.zip scheds).map (fun pr => runBatchScheduled run pr.1 pr.2) =
        chunked.map (fun b => (b.map (fun s => (run s).1)).flatten) := by
  intro chunked
  induction chunked with
  | nil => intro scheds _ _; simp
  | cons b bs ih =>
      intro scheds hlen hperm
      cases scheds with
      | nil => simp at hlen
      | cons s ss =>
          simp only [List.zip_cons_cons, List.map_cons]
          rw [runBatchScheduled_eq run b s (hperm (b, s) (by simp)),
            ih ss (by simpa using hlen) (fun pr hpr => hperm pr (by simp [hpr]))]

/-- C2: when every per-subscription fetch succeeds, the output of
`getDataFromConsumptionManagement` equals the flattening, in
subscription-list order, of each subscription's individual result
sequence, independently of the completion order of the concurrently
issued tasks (any per-batch completion permutation yields the same
value). -/
theorem claim_C2_order_independence (a : AzureAccount) (w : World)
    (AZURE : AzureConfig) (startDate endDate : Nat) (grouping : GroupBy)
    (subs : List Subscription) (scheds : List (List Nat))
    (res : Subscription → List EstimationResult)
    (hlist : w.listSubscriptions a.subscriptionClient = .ok subs)
    (hne : subs ≠ [])
    (hok : ∀ s ∈ subs,
      w.fetchConsumption a.credentials startDate endDate s.subscriptionId grouping =
        .ok (res s))
    (hlen : scheds.length = (chunkRequests AZURE subs).length)
    (hperm : ∀ pr ∈ (chunkRequests AZURE subs).zip scheds,
      pr.2.Perm (List.range pr.1.length)) :
    getDataFromConsumptionManagementScheduled a w AZURE startDate endDate grouping scheds =
      .ok (subs.map res).flatten ∧
    (getDataFromConsumptionManagement a w AZURE startDate endDate grouping).value =
      .ok (subs.map res).flatten := by
  have hmapeq : subs.map (fun s => (runSubscriptionRequest a w startDate endDate grouping s).1)
      = subs.map res :=
    List.map_congr_left (fun s hs => by simp [runSubscriptionRequest, hok s hs])
  have hv : (getSubscriptions a w).value = .ok subs := by simp [getSubscriptions, hlist]
  constructor
  · unfold getDataFromConsumptionManagementScheduled
    rw [hv]
    by_cases hd : AZURE.CONSUMPTION_CHUNKS_DAYS
    · simp only [hd, if_true]
      rw [hmapeq]
    · simp only [hd, Bool.false_eq_true, if_false]
      rw [scheduled_batches_eq (runSubscriptionRequest a w startDate endDate grouping)
        (chunkRequests AZURE subs) scheds hlen hperm]
      rw [flatten_map_batches, chunkRequests_flatten, hmapeq]
  · rw [(consumption_unfold a w AZURE startDate endDate grouping subs hlist).1, hmapeq]

/-- C2 witness: three subscriptions, all fetches succeeding, batch size
2 and a schedule completing each batch in reverse issue order. -/
theorem claim_C2_order_independence_witness :
    (wOk.listSubscriptions accountTest.subscriptionClient = .ok [subA, subB, subC] ∧
     [subA, subB, subC] ≠ [] ∧
     (∀ s ∈ [subA, subB, subC],
       wOk.fetchConsumption accountTest.credentials 0 1 s.subscriptionId GroupBy.day =
         .ok (resOk s)) ∧
     ([[1, 0], [0]] : List (List Nat)).length =
       (chunkRequests ⟨false, some 2⟩ [subA, subB, subC]).length ∧
     (∀ pr ∈ (chunkRequests ⟨false, some 2⟩ [subA, subB, subC]).zip [[1, 0], [0]],
       pr.2.Perm (List.range pr.1.length))) ∧
    (getDataFromConsumptionManagementScheduled accountTest wOk ⟨false, some 2⟩ 0 1
        GroupBy.day [[1, 0], [0]] =
      .ok ([subA, subB, subC].map resOk).flatten ∧
     (getDataFromConsumptionManagement accountTest wOk ⟨false, some 2⟩ 0 1
        GroupBy.day).value = .ok ([subA, subB, subC].map resOk).flatten) :=
  ⟨⟨rfl, by decide, by decide, by decide, by decide⟩,
   claim_C2_order_independence accountTest wOk ⟨false, some 2⟩ 0 1 GroupBy.day
     [subA, subB, subC] [[1, 0], [0]] resOk rfl (by decide) (by decide) (by decide)
     (by decide)⟩

/-- C3: when `CONSUMPTION_CHUNKS_DAYS` is true the execution trace is
the strictly sequential one: every prefix has at most one task in
flight, and (for a non-empty task list) the in-flight high-water mark 1
is attained. -/
theorem claim_C3_sequential_when_chunk_by_day (AZURE : AzureConfig) (n : Nat)
    (scheds : List (List Nat)) (h : AZURE.CONSUMPTION_CHUNKS_DAYS = true) :
    consumptionTrace AZURE n scheds = seqTrace n ∧
    (∀ p, ListPrefix p (consumptionTrace AZURE n scheds) → inFlight p ≤ 1) ∧
    (0 < n →
      ListPrefix [Event.start 0] (consumptionTrace AZURE n scheds) ∧
      inFlight [Event.start 0] = 1) := by
  have htr : consumptionTrace AZURE n scheds = seqTrace n := by
    simp [consumptionTrace, h]
  refine ⟨htr, ?_, ?_⟩
  · rw [htr]
    exact seqTraceAux_inFlight_le_one (List.range n)
  · intro hn
    refine ⟨?_, by simp [inFlight, delta]⟩
    rw [htr]
    cases n with
    | zero => omega
    | succ m =>
        refine ⟨Event.finish 0 :: seqTraceAux ((List.range m).map Nat.succ), ?_⟩
        rw [seqTrace, List.range_succ_eq_map]
        rfl

/-- C3 witness: two tasks under a `chunkByDay` configuration. -/
theorem claim_C3_sequential_when_chunk_by_day_witness :
    (AzureConfig.mk true none).CONSUMPTION_CHUNKS_DAYS = true ∧
    (consumptionTrace ⟨true, none⟩ 2 [] = seqTrace 2 ∧
     (∀ p, ListPrefix p (consumptionTrace ⟨true, none⟩ 2 []) → inFlight p ≤ 1) ∧
     (0 < 2 →
       ListPrefix [Event.start 0] (consumptionTrace ⟨true, none⟩ 2 []) ∧
       inFlight [Event.start 0] = 1)) :=
  ⟨rfl, claim_C3_sequential_when_chunk_by_day ⟨true, none⟩ 2 [] rfl⟩

lemma consumptionBatches_pairwise_disjoint (AZURE : AzureConfig) (n : Nat) :
    (consumptionBatches AZURE n).Pairwise List.Disjoint := by
  have h1 : (consumptionBatches AZURE n).flatten.Nodup := by
    rw [consumptionBatches, chunkRequests_flatten]
    exact List.nodup_range n
  exact (List.nodup_flatten.1 h1).2

lemma map_fst_zip_sublist :
    ∀ (l₁ : List α) (l₂ : List β), ((l₁.zip l₂).map Prod.fst).Sublist l₁ := by
  intro l₁
  induction l₁ with
  | nil => intro l₂; simp
  | cons x t ih =>
      intro l₂
      cases l₂ with
      | nil => simp
      | cons y u =>
          simp only [List.zip_cons_cons, List.map_cons]
          exact List.Sublist.cons₂ x (ih u)

/-- C4: with `chunkByDay` false and a positive configured batch size,
the tasks are partitioned into consecutive batches of that size (for
size 2 over 5 subscriptions: sizes [2, 2, 1]), and for any completion
schedules no task of a later batch is issued before every task of an
earlier batch has resolved. -/
theorem claim_C4_batch_barrier (AZURE : AzureConfig) (n k : Nat)
    (scheds : List (List Nat))
    (hdays : AZURE.CONSUMPTION_CHUNKS_DAYS = false)
    (hchunks : AZURE.SUBSCRIPTION_CHUNKS = some k) (hk : 0 < k)
    (hperm : ∀ pr ∈ (consumptionBatches AZURE n).zip scheds, pr.2.Perm pr.1) :
    (consumptionBatches ⟨false, some 2⟩ 5).map List.length = [2, 2, 1] ∧
    ∀ p q prP prQ i j, p < q →
      ((consumptionBatches AZURE n).zip scheds).get? p = some prP →
      ((consumptionBatches AZURE n).zip scheds).get? q = some prQ →
      i ∈ prP.1 → j ∈ prQ.1 →
      firstIdx (consumptionTrace AZURE n scheds) (Event.finish i) <
        firstIdx (consumptionTrace AZURE n scheds) (Event.start j) := by
  refine ⟨rfl, ?_⟩
  intro p q prP prQ i j hpq hp hq hi hj
  have htr : consumptionTrace AZURE n scheds =
      chunkedTrace ((consumptionBatches AZURE n).zip scheds) := by
    simp [consumptionTrace, hdays]
  rw [htr]
  refine chunkedTrace_barrier _ ?_ ?_ p q prP prQ i j hpq hp hq hi hj
  · exact List.Pairwise.sublist (map_fst_zip_sublist _ _)
      (consumptionBatches_pairwise_disjoint AZURE n)
  · intro pr hpr
    exact hperm pr hpr

/-- C4 witness: 5 tasks, batch size 2, each batch completing in reverse
issue order. -/
theorem claim_C4_batch_barrier_witness :
    ((AzureConfig.mk false (some 2)).CONSUMPTION_CHUNKS_DAYS = false ∧
     (AzureConfig.mk false (some 2)).SUBSCRIPTION_CHUNKS = some 2 ∧
     0 < 2 ∧
     (∀ pr ∈ (consumptionBatches ⟨false, some 2⟩ 5).zip [[1, 0], [3, 2], [4]],
       pr.2.Perm pr.1)) ∧
    ((consumptionBatches ⟨false, some 2⟩ 5).map List.length = [2, 2, 1] ∧
     ∀ p q prP prQ i j, p < q →
       ((consumptionBatches ⟨false, some 2⟩ 5).zip [[1, 0], [3, 2], [4]]).get? p =
         some prP →
       ((consumptionBatches ⟨false, some 2⟩ 5).zip [[1, 0], [3, 2], [4]]).get? q =
         some prQ →
       i ∈ prP.1 → j ∈ prQ.1 →
       firstIdx (consumptionTrace ⟨false, some 2⟩ 5 [[1, 0], [3, 2], [4]])
           (Event.finish i) <
         firstIdx (consumptionTrace ⟨false, some 2⟩ 5 [[1, 0], [3, 2], [4]])
           (Event.start j)) :=
  ⟨⟨rfl, rfl, by decide, by decide⟩,
   claim_C4_batch_barrier ⟨false, some 2⟩ 5 2 [[1, 0], [3, 2], [4]] rfl rfl
     (by decide) (by decide)⟩

/-- C7: with `SUBSCRIPTION_CHUNKS` unset and `chunkByDay` false, all
tasks form one single batch of size equal to the task count, and the
trace issues every task before any resolution — no intermediate batch
barrier. -/
theorem claim_C7_single_concurrent_batch (AZURE : AzureConfig) (n : Nat)
    (sched : List Nat)
    (hdays : AZURE.CONSUMPTION_CHUNKS_DAYS = false)
    (hchunks : AZURE.SUBSCRIPTION_CHUNKS = none) :
    consumptionBatches AZURE n = [List.range n] ∧
    (List.range n).length = n ∧
    consumptionTrace AZURE n [sched] =
      (List.range n).map Event.start ++ sched.map Event.finish := by
  have hb : consumptionBatches AZURE n = [List.range n] := by
    simp [consumptionBatches, chunkRequests, hchunks, jsTruthy]
  refine ⟨hb, List.length_range n, ?_⟩
  simp [consumptionTrace, hdays, hb, chunkedTrace, batchTrace]

/-- C7 witness: three tasks, no configured batch size. -/
theorem claim_C7_single_concurrent_batch_witness :
    ((AzureConfig.mk false none).CONSUMPTION_CHUNKS_DAYS = false ∧
     (AzureConfig.mk false none).SUBSCRIPTION_CHUNKS = none) ∧
    (consumptionBatches ⟨false, none⟩ 3 = [List.range 3] ∧
     (List.range 3).length = 3 ∧
     consumptionTrace ⟨false, none⟩ 3 [[2, 0, 1]] =
       (List.range 3).map Event.start ++ [2, 0, 1].map Event.finish) :=
  ⟨⟨rfl, rfl⟩, claim_C7_single_concurrent_batch ⟨false, none⟩ 3 [2, 0, 1] rfl rfl⟩

end CCF

-- sanity checks on the embedding
example : CCF.splitEvery 2 [1,2,3,4,5] = [[1,2],[3,4],[5]] := by decide
example : CCF.splitEvery 3 ([] : List Nat) = [] := by decide
example : CCF.splitEvery 2 [1,2,3,4] = [[1,2],[3,4]] := by decide
example : CCF.consumptionDebugLine none =
    "Fetching Azure consumption data with undefined\x7d 1\x7d chunk(s)" := by decide
